import Mathlib

/-
Verification of the torchlight audio-relay core: a shallow embedding of
src/torchlight/FFmpegAudioPlayer.py and src/torchlight/AudioManager.py,
with theorems settling the spec claims about pipeline lifecycle,
event dispatch, admission limits, vote-stop moderation and force-stop.
Real time, subprocesses and sockets are represented by explicit state
fields; Python floats are embedded as rationals.
-/

namespace Torchlight

/-- Python exceptions that the embedded code can signal. -/
inductive PyError where
  | attributeError : PyError
  | valueError : PyError
  | other : String → PyError
deriving DecidableEq, Repr

/-- FFmpegAudioPlayer.VALID_CALLBACKS: the three event kinds. -/
def VALID_CALLBACKS : List String := ["Play", "Stop", "Update"]

/-- State of one FFmpegAudioPlayer (FFmpegAudioPlayer.py, __init__).
Handlers are identified by numeric ids; `callbacks = none` embeds the state
after `del self.callbacks` in Stop, where the attribute no longer exists. -/
structure FFmpegAudioPlayer where
  playing : Bool
  uri : String
  startedPlaying : Option ℚ
  stoppedPlaying : Option ℚ
  seconds : ℚ
  ffmpegProcess : Bool
  curlProcess : Bool
  writer : Bool
  callbacks : Option (List (String × ℕ))
deriving DecidableEq, Repr

/-- FFmpegAudioPlayer.Callback: dispatch one event to a registration list.
`beh h = false` means handler `h` raises; the `try/except` around the call
logs it and the loop continues.  Returns the handlers invoked, in order,
and the handlers whose exception was caught and logged. -/
def Callback (beh : ℕ → Bool) (cbtype : String) :
    List (String × ℕ) → List ℕ × List ℕ
  | [] => ([], [])
  | (t, h) :: rest =>
    let (inv, errs) := Callback beh cbtype rest
    if t = cbtype then
      if beh h then (h :: inv, errs) else (h :: inv, h :: errs)
    else (inv, errs)

/-- Result of FFmpegAudioPlayer.Stop: the Python return value, the state
afterwards, whether the `Stop` event was dispatched during this call, the
handlers it was delivered to, and whether the socket close was abortive. -/
structure StopResult where
  retval : Bool
  state : FFmpegAudioPlayer
  firedStop : Bool
  stopListeners : List ℕ
  abortedSocket : Bool
deriving DecidableEq, Repr

/-- FFmpegAudioPlayer.Stop(force): returns False when not playing; otherwise
kills both subprocesses, closes the transport (abortively when forced),
clears `playing`, fires the `Stop` event once, then deletes the
registration list (`del self.callbacks`). -/
def FFmpegAudioPlayer.Stop (s : FFmpegAudioPlayer) (beh : ℕ → Bool)
    (force : Bool) : StopResult :=
  if ¬ s.playing then ⟨false, s, false, [], false⟩
  else
    let cbs := s.callbacks.getD []
    let delivered := (Callback beh "Stop" cbs).1
    { retval := true
      state :=
        { s with
          playing := false
          uri := ""
          ffmpegProcess := false
          curlProcess := false
          writer := false
          callbacks := none }
      firedStop := true
      stopListeners := delivered
      abortedSocket := s.writer && force }

/-- FFmpegAudioPlayer.AddCallback: rejects an unknown event kind with
`False`; otherwise appends to `self.callbacks`, which raises
AttributeError once Stop has deleted the list. -/
def FFmpegAudioPlayer.AddCallback (s : FFmpegAudioPlayer) (cbtype : String)
    (cbfunc : ℕ) : Except PyError (FFmpegAudioPlayer × Bool) :=
  if ¬ VALID_CALLBACKS.contains cbtype then .ok (s, false)
  else
    match s.callbacks with
    | none => .error .attributeError
    | some cbs =>
      .ok ({ s with callbacks := some (cbs ++ [(cbtype, cbfunc)]) }, true)

/-- Event dispatch on a player state: with the registrations deleted
(after Stop) no handler is invoked. -/
def FFmpegAudioPlayer.dispatch (s : FFmpegAudioPlayer) (beh : ℕ → Bool)
    (cbtype : String) : List ℕ :=
  (Callback beh cbtype (s.callbacks.getD [])).1

/-- Result of one tick of FFmpegAudioPlayer._updater. -/
structure TickResult where
  update : Option (ℚ × ℚ)
  stoppedThisTick : Bool
  stopForce : Bool
  state : FFmpegAudioPlayer
  nextLastElapsed : ℚ
deriving DecidableEq, Repr

/-- One iteration of the `while self.playing` loop in
FFmpegAudioPlayer._updater at wall-clock time `now`: compute elapsed time
since `started_playing`, clamp it to the PCM total `seconds`, fire
`Update(last, elapsed)`, and when the clamped value has reached `seconds`
call `Stop(False)` and leave the loop. -/
def updaterTick (s : FFmpegAudioPlayer) (beh : ℕ → Bool)
    (lastSecondsElapsed : ℚ) (now : ℚ) : TickResult :=
  if ¬ s.playing then
    ⟨none, false, false, s, lastSecondsElapsed⟩
  else
    let elapsed0 : ℚ :=
      match s.startedPlaying with
      | some t => now - t
      | none => 0
    let elapsed : ℚ := if elapsed0 > s.seconds then s.seconds else elapsed0
    if elapsed ≥ s.seconds then
      ⟨some (lastSecondsElapsed, elapsed), true, false,
        (FFmpegAudioPlayer.Stop s beh false).state, lastSecondsElapsed⟩
    else
      ⟨some (lastSecondsElapsed, elapsed), false, false, s, elapsed⟩

/-- Fold a sequence of Stop calls (one Bool per `force` flag) over a player,
collecting the return values and the number of times the `Stop` event was
dispatched. -/
def stopSeq (beh : ℕ → Bool) :
    FFmpegAudioPlayer → List Bool → List Bool × ℕ × FFmpegAudioPlayer
  | s, [] => ([], 0, s)
  | s, f :: fs =>
    let r := FFmpegAudioPlayer.Stop s beh f
    let (rets, n, s') := stopSeq beh r.state fs
    (r.retval :: rets, (if r.firedStop then 1 else 0) + n, s')

/-- listLeads n h: the list `n` occurs at the head of `h`. -/
def listLeads : List Char → List Char → Bool
  | [], _ => true
  | _ :: _, [] => false
  | a :: as, b :: bs => a = b && listLeads as bs

/-- listHasSub n h: the list `n` occurs contiguously somewhere in `h`. -/
def listHasSub (n : List Char) : List Char → Bool
  | [] => n.isEmpty
  | b :: bs => listLeads n (b :: bs) || listHasSub n bs

/-- Python `needle in hay` on strings: contiguous substring test. -/
def strContains (needle hay : String) : Bool :=
  listHasSub needle.toList hay.toList

/-- Python round(): round half to even, as used for the cooldown report. -/
def pyRound (q : ℚ) : ℤ :=
  if q - (⌊q⌋ : ℚ) < 1 / 2 then ⌊q⌋
  else if 1 / 2 < q - (⌊q⌋ : ℚ) then ⌊q⌋ + 1
  else if ⌊q⌋ % 2 = 0 then ⌊q⌋ else ⌊q⌋ + 1

/-- One tier entry of the anti-spam configuration (keyed by the admin
level rendered as a string): `Uses < 0` means unlimited grants. -/
structure TierPolicy where
  Uses : ℤ
  TotalTime : ℚ
  DelayFactor : ℚ
deriving DecidableEq, Repr

/-- Per-player usage counters, `player.storage["Audio"]`. -/
structure AudioStorage where
  Uses : ℤ
  TimeUsed : ℚ
  LastUse : ℚ
  LastUseLength : ℚ
deriving DecidableEq, Repr

/-- The player context the manager consults: stable ids, display name,
current admin level and the usage counters. -/
structure PlayerCtx where
  userId : ℕ
  uniqueId : String
  name : String
  level : ℤ
  storage : AudioStorage
deriving DecidableEq, Repr

/-- Anti-spam configuration: the tier table keyed by `str(level)`, plus
the StopLevel and ImmunityLevel entries of the same dictionary. -/
structure AntiSpamConfig where
  tiers : List (String × TierPolicy)
  StopLevel : ℤ
  ImmunityLevel : ℤ
deriving DecidableEq, Repr

/-- Chat messages sent by the manager via SayPrivate, with their payloads. -/
inductive Msg where
  | usedUpUses (uses : ℤ)
  | usedUpTime (totalTime : ℚ)
  | cooldown (secondsLeft : ℤ)
  | noAudioPlaying
  | needMoreStops (votes : ℤ) (ownerName : String)
  | stoppedBy (stopperName : String)
  | stoppedCountReport (n : ℕ)
  | noMatchHint
  | forceStopped
deriving DecidableEq, Repr

/-- AudioManager.CheckLimits: with no tier entry for `str(level)` the player
passes; otherwise reject on exhausted grant count, exhausted cumulative
time, or remaining cooldown (reported rounded).  Returns the verdict and
the private messages sent to the player. -/
def CheckLimits (conf : AntiSpamConfig) (loopTime : ℚ) (player : PlayerCtx) :
    Bool × List Msg :=
  match conf.tiers.lookup (toString player.level) with
  | none => (true, [])
  | some tier =>
    if tier.Uses ≥ 0 ∧ player.storage.Uses ≥ tier.Uses then
      (false, [.usedUpUses tier.Uses])
    else if player.storage.TimeUsed ≥ tier.TotalTime then
      (false, [.usedUpTime tier.TotalTime])
    else
      let timeElapsed := loopTime - player.storage.LastUse
      let useDelay := player.storage.LastUseLength * tier.DelayFactor
      if timeElapsed < useDelay then
        (false, [.cooldown (pyRound (useDelay - timeElapsed))])
      else (true, [])

/-- Modelled from the spec: the AudioClip session object (AudioClip.py is
not part of the sources here).  Per §3, a session carries its owning
player, the owner's admin level at grant time, the source URI, the mutable
set of distinct voter ids, and its pipeline. -/
structure AudioClip where
  player : PlayerCtx
  level : ℤ
  uri : String
  stops : Finset ℕ
  pipe : FFmpegAudioPlayer
deriving DecidableEq

/-- Modelled from the spec: AudioClip.Stop invokes the session's pipeline
Stop (§4.1 "invoke the session's pipeline Stop"), forwarding its Boolean
result. -/
def clipStop (beh : ℕ → Bool) (c : AudioClip) : Bool × AudioClip :=
  let r := FFmpegAudioPlayer.Stop c.pipe beh true
  (r.retval, { c with pipe := r.state })

/-- Outcome of AudioManager.Stop's per-clip body. -/
inductive ClipOutcome where
  | skipped
  | voteRecorded (votesNeeded : ℤ) (c : AudioClip)
  | stopped (c : AudioClip) (notifyOwner : Bool)
  | stopFailed (c : AudioClip)
deriving DecidableEq

/-- Per-candidate body of the loop in AudioManager.Stop: skip on filter
mismatch; permit when the requester owns the clip, has level ≥ StopLevel,
or level above the owner's grant-time level; otherwise record the vote and
permit only once `3 - len(stops) ≤ 0`.  On permission call the clip's
Stop; the owner is notified when the requester is someone else. -/
def processClip (beh : ℕ → Bool) (stopLevel : ℤ) (p : PlayerCtx)
    (extra : String) (c : AudioClip) : ClipOutcome :=
  if extra ≠ "" ∧ ¬ strContains extra.toLower c.player.name.toLower then
    .skipped
  else
    let tryStop (c0 : AudioClip) (notify : Bool) : ClipOutcome :=
      let (ok, c') := clipStop beh c0
      if ok then .stopped c' notify else .stopFailed c'
    if p.userId = c.player.userId then tryStop c false
    else if p.level ≥ stopLevel then tryStop c true
    else if p.level > c.level then tryStop c true
    else
      let stops' := insert p.userId c.stops
      let votesNeeded : ℤ := 3 - stops'.card
      if votesNeeded ≤ 0 then tryStop { c with stops := stops' } true
      else .voteRecorded votesNeeded { c with stops := stops' }

/-- Python list.remove: drop the first occurrence, ValueError when absent. -/
def pyRemove [DecidableEq α] : List α → α → Except PyError (List α)
  | [], _ => .error .valueError
  | x :: xs, a =>
    if x = a then .ok xs
    else
      match pyRemove xs a with
      | .ok l => .ok (x :: l)
      | .error e => .error e

/-- The registered Stop listener `lambda: self.audio_clips.remove(clip)` as
it actually runs: inside Callback's try/except, so a ValueError from a
second removal is caught and logged, never raised.  Returns the resulting
list and whether an exception was logged. -/
def dispatchedRemove [DecidableEq α] (l : List α) (a : α) : List α × Bool :=
  match pyRemove l a with
  | .ok l' => (l', false)
  | .error _ => (l, true)

/-- Accumulated state of the loop in AudioManager.Stop: the clip objects
(by snapshot index), the live registry as indices into the snapshot, the
`stopped_count` variable, the indices actually stopped, and the private
messages sent so far. -/
structure MgrLoopSt where
  states : List AudioClip
  live : List ℕ
  cnt : ℕ
  stoppedIdx : List ℕ
  msgs : List (ℕ × Msg)
deriving DecidableEq

/-- The `for audio_clip in self.audio_clips[:]` loop of AudioManager.Stop,
iterating over snapshot indices.  A stopped clip's pipeline fires the Stop
listener that removes it from the live registry (through the dispatcher,
so a missing element is logged, not raised); a recorded vote mutates the
clip in place and messages the requester. -/
def managerLoop (beh : ℕ → Bool) (stopLevel : ℤ) (p : PlayerCtx)
    (extra : String) :
    List ℕ → List AudioClip → List ℕ → MgrLoopSt
  | [], states, live => ⟨states, live, 0, [], []⟩
  | i :: rest, states, live =>
    match states.get? i with
    | none => managerLoop beh stopLevel p extra rest states live
    | some c =>
      match processClip beh stopLevel p extra c with
      | .skipped => managerLoop beh stopLevel p extra rest states live
      | .voteRecorded n c' =>
        let r := managerLoop beh stopLevel p extra rest (states.set i c') live
        { r with
          msgs := (p.userId, Msg.needMoreStops n c.player.name) :: r.msgs }
      | .stopped c' notify =>
        let r := managerLoop beh stopLevel p extra rest (states.set i c')
          (dispatchedRemove live i).1
        { r with
          cnt := r.cnt + 1
          stoppedIdx := i :: r.stoppedIdx
          msgs :=
            (if notify then [(c.player.userId, Msg.stoppedBy p.name)] else [])
              ++ r.msgs }
      | .stopFailed c' =>
        managerLoop beh stopLevel p extra rest (states.set i c') live

/-- Result of AudioManager.Stop: the registry afterwards, all private
messages in order, the final `stopped_count`, the snapshot indices of the
stopped sessions, and the Python return value of the method. -/
structure ManagerStopResult where
  clips : List AudioClip
  messages : List (ℕ × Msg)
  stoppedCount : ℕ
  stoppedIdx : List ℕ
  returnValue : Option ℤ
deriving DecidableEq

/-- AudioManager.Stop(player, extra): report "no audio" on an empty
registry; otherwise run the per-clip loop over a snapshot, then report the
stopped count (when positive) or, with no filter given, a usage hint.  The
method is annotated `-> None` and every return is bare. -/
def managerStop (beh : ℕ → Bool) (stopLevel : ℤ) (p : PlayerCtx)
    (extra : String) (clips : List AudioClip) : ManagerStopResult :=
  if clips.isEmpty then
    ⟨[], [(p.userId, Msg.noAudioPlaying)], 0, [], none⟩
  else
    let idx := List.range clips.length
    let r := managerLoop beh stopLevel p extra idx clips idx
    let trailing : List (ℕ × Msg) :=
      if r.cnt > 0 then [(p.userId, Msg.stoppedCountReport r.cnt)]
      else if extra = "" then [(p.userId, Msg.noMatchHint)]
      else []
    ⟨r.live.filterMap (fun i => r.states.get? i), r.msgs ++ trailing,
      r.cnt, r.stoppedIdx, none⟩

/-- The loop of AudioManager.StopAll over a snapshot: `audio_clip.Stop()`
runs under try/except, so an exception (`stopBeh c = .error _`) is logged
and the loop continues; a successful stop removes the clip from the live
registry through its Stop listener; every owner is then notified.
Returns (live registry after the loop, messages, exceptions logged). -/
def stopAllLoop (stopBeh : AudioClip → Except PyError Bool) :
    List AudioClip → List AudioClip → List AudioClip × List (ℕ × Msg) × ℕ
  | live, [] => (live, [], 0)
  | live, c :: rest =>
    let (live', errInc) :=
      match stopBeh c with
      | .ok true => ((dispatchedRemove live c).1, 0)
      | .ok false => (live, 0)
      | .error _ => (live, 1)
    let (liveF, msgs, errs) := stopAllLoop stopBeh live' rest
    (liveF, (c.player.userId, Msg.forceStopped) :: msgs, errInc + errs)

/-- Result of AudioManager.StopAll: the registry afterwards (cleared
explicitly), the owner notifications, the number of exceptions caught, and
the live registry as it stood just before `self.audio_clips.clear()`. -/
structure StopAllResult where
  clips : List AudioClip
  messages : List (ℕ × Msg)
  errorsLogged : ℕ
  preClearLive : List AudioClip
deriving DecidableEq

/-- AudioManager.StopAll: best-effort Stop on every clip of a snapshot,
notify each owner, then clear the registry unconditionally. -/
def StopAll (stopBeh : AudioClip → Except PyError Bool)
    (clips : List AudioClip) : StopAllResult :=
  let (live, msgs, errs) := stopAllLoop stopBeh clips clips
  ⟨[], msgs, errs, live⟩

/-- The `audio_clip.Stop()` call of StopAll raised, in the behavior model. -/
def behErred (stopBeh : AudioClip → Except PyError Bool) (c : AudioClip) :
    Bool :=
  match stopBeh c with
  | .error _ => true
  | _ => false

/-- Concrete pipelines and players used to instantiate the theorems. -/
def c1pl : FFmpegAudioPlayer :=
  { playing := true
    uri := "song"
    startedPlaying := some 5
    stoppedPlaying := none
    seconds := 3
    ffmpegProcess := true
    curlProcess := true
    writer := true
    callbacks := some [("Stop", 7), ("Play", 8), ("Stop", 9)] }

/-- Concrete input for the C10 witness: counters far past every limit, but
the tier table has no entry for level 7. -/
def c10conf : AntiSpamConfig :=
  { tiers := [("0", { Uses := 1, TotalTime := 1, DelayFactor := 100 })]
    StopLevel := 3
    ImmunityLevel := 4 }

def c10player : PlayerCtx :=
  { userId := 2
    uniqueId := "u2"
    name := "Carol"
    level := 7
    storage := { Uses := 999, TimeUsed := 999, LastUse := 0, LastUseLength := 999 } }

/-- Concrete playing pipeline for the C7 witness. -/
def c7pl : FFmpegAudioPlayer :=
  { playing := true
    uri := "clip7"
    startedPlaying := some 2
    stoppedPlaying := none
    seconds := 1
    ffmpegProcess := true
    curlProcess := true
    writer := true
    callbacks := some [("Stop", 1)] }

/-- Concrete session for the C7 witness. -/
def c7clip : AudioClip :=
  { player :=
      { userId := 1
        uniqueId := "a"
        name := "Alice"
        level := 0
        storage := { Uses := 0, TimeUsed := 0, LastUse := 0, LastUseLength := 0 } }
    level := 0
    uri := "song"
    stops := ∅
    pipe := c7pl }

/-- Concrete playing pipeline for the C9 counterexample and theorem. -/
def c9pl : FFmpegAudioPlayer :=
  { playing := true
    uri := "song"
    startedPlaying := some 5
    stoppedPlaying := none
    seconds := 3
    ffmpegProcess := true
    curlProcess := true
    writer := true
    callbacks := some [("Stop", 7)] }

/-- Concrete streaming pipeline for the C6 witness. -/
def c6pl : FFmpegAudioPlayer :=
  { playing := true
    uri := "song"
    startedPlaying := some 5
    stoppedPlaying := none
    seconds := 3
    ffmpegProcess := true
    curlProcess := true
    writer := true
    callbacks := some [("Update", 2), ("Stop", 7)] }

/-- Concrete tier and player for the C4 witness: previous grant of 4
seconds with cooldown factor 3, so a request 5 seconds after the grant is
7 seconds early and a request 12 seconds after it passes. -/
def c4tier : TierPolicy := { Uses := 5, TotalTime := 100, DelayFactor := 3 }

def c4conf : AntiSpamConfig :=
  { tiers := [("0", c4tier)]
    StopLevel := 3
    ImmunityLevel := 4 }

def c4p : PlayerCtx :=
  { userId := 3
    uniqueId := "u3"
    name := "Dave"
    level := 0
    storage := { Uses := 1, TimeUsed := 10, LastUse := 100, LastUseLength := 4 } }

/-- Concrete pipeline and session for the C2 witness: two votes already
recorded, a third distinct non-owner voter arrives. -/
def c2pl : FFmpegAudioPlayer :=
  { playing := true
    uri := "clip2"
    startedPlaying := some 0
    stoppedPlaying := none
    seconds := 10
    ffmpegProcess := true
    curlProcess := true
    writer := true
    callbacks := some [("Stop", 3)] }

def c2owner : PlayerCtx :=
  { userId := 1
    uniqueId := "o1"
    name := "Alice"
    level := 0
    storage := { Uses := 0, TimeUsed := 0, LastUse := 0, LastUseLength := 0 } }

def c2req : PlayerCtx := { c2owner with userId := 4, uniqueId := "o4", name := "Bob" }

def c2clip : AudioClip :=
  { player := c2owner
    level := 0
    uri := "clip2"
    stops := {2, 3}
    pipe := c2pl }

/-- Concrete registry for the C5 counterexample: the owner stops their own
single session. -/
def c5pl : FFmpegAudioPlayer :=
  { playing := true
    uri := "clip5"
    startedPlaying := some 0
    stoppedPlaying := none
    seconds := 10
    ffmpegProcess := true
    curlProcess := true
    writer := true
    callbacks := some [("Stop", 5)] }

def c5owner : PlayerCtx :=
  { userId := 9
    uniqueId := "o9"
    name := "Eve"
    level := 0
    storage := { Uses := 0, TimeUsed := 0, LastUse := 0, LastUseLength := 0 } }

def c5clip : AudioClip :=
  { player := c5owner
    level := 0
    uri := "clip5"
    stops := ∅
    pipe := c5pl }

/-- Helper fact: a pipeline that is already stopped returns False from every
further Stop call, fires nothing, and its state does not change. -/
theorem stopSeq_of_stopped (beh : ℕ → Bool) (fs : List Bool) :
    ∀ s : FFmpegAudioPlayer, s.playing = false →
      stopSeq beh s fs = (List.replicate fs.length false, 0, s) := by
  induction fs with
  | nil => intro s _; rfl
  | cons f fs ih =>
    intro s h
    simp only [stopSeq, FFmpegAudioPlayer.Stop, h]
    simp [ih s h, List.replicate_succ]

/-- C1.  On a pipeline where Play has been accepted (`playing = true`), any
sequence of Stop calls returns True on the first call and False on every
later one, and the Stop event is dispatched exactly once in total. -/
theorem stop_idempotent_fires_once (s : FFmpegAudioPlayer) (beh : ℕ → Bool)
    (f : Bool) (fs : List Bool) (h : s.playing = true) :
    (stopSeq beh s (f :: fs)).1 = true :: List.replicate fs.length false ∧
      (stopSeq beh s (f :: fs)).2.1 = 1 := by
  simp only [stopSeq, FFmpegAudioPlayer.Stop, h]
  rw [stopSeq_of_stopped beh fs _ rfl]
  simp

/-- Witness for C1 at a concrete playing pipeline and three Stop calls. -/
theorem stop_idempotent_fires_once_witness :
    (stopSeq (fun _ => true) c1pl [true, false, true]).1 =
        true :: List.replicate 2 false ∧
      (stopSeq (fun _ => true) c1pl [true, false, true]).2.1 = 1 :=
  stop_idempotent_fires_once c1pl (fun _ => true) true [false, true] rfl

/-- C8.  Event dispatch invokes exactly the handlers registered for the
event kind, in registration order, whatever each handler's behavior is
(a raising handler is logged and the rest still run); the logged handlers
are exactly the raising ones among those invoked. -/
theorem callback_dispatch_ordered_isolated (beh : ℕ → Bool) (cbtype : String)
    (cbs : List (String × ℕ)) :
    (Callback beh cbtype cbs).1 =
        (cbs.filter (fun p => p.1 = cbtype)).map Prod.snd ∧
      (Callback beh cbtype cbs).2 =
        (cbs.filter (fun p => p.1 = cbtype ∧ beh p.2 = false)).map Prod.snd := by
  induction cbs with
  | nil => exact ⟨rfl, rfl⟩
  | cons hd tl ih =>
    obtain ⟨t, hdl⟩ := hd
    obtain ⟨ih1, ih2⟩ := ih
    by_cases ht : t = cbtype
    · by_cases hb : beh hdl
      · simp [Callback, ht, hb, ih1, ih2, List.filter]
      · simp only [Bool.not_eq_true] at hb
        simp [Callback, ht, hb, ih1, ih2, List.filter]
    · simp [Callback, ht, ih1, ih2, List.filter]

/-- Helper fact: the owner notifications of StopAll cover every clip of the
snapshot in order, and the exceptions logged are exactly the clips whose
Stop raised, whatever the live list is. -/
theorem stopAllLoop_messages (stopBeh : AudioClip → Except PyError Bool) :
    ∀ (snapshot live : List AudioClip),
      (stopAllLoop stopBeh live snapshot).2.1 =
          snapshot.map (fun c => (c.player.userId, Msg.forceStopped)) ∧
        (stopAllLoop stopBeh live snapshot).2.2 =
          snapshot.countP (fun c => behErred stopBeh c) := by
  intro snapshot
  induction snapshot with
  | nil => intro live; exact ⟨rfl, rfl⟩
  | cons c rest ih =>
    intro live
    simp only [stopAllLoop]
    rcases hb : stopBeh c with e | b
    · refine ⟨by simp [hb, (ih _).1], ?_⟩
      simp [hb, (ih _).2, behErred, List.countP_cons]
      omega
    · cases b <;>
        simp [hb, (ih _).1, (ih _).2, behErred, List.countP_cons]

/-- C3.  StopAll leaves the registry empty for every stop behavior —
including behaviors where some pipeline teardown raises — and every owner
of a snapshot clip receives the force-stop notification; each raising
teardown is caught and logged rather than aborting the loop. -/
theorem stopAll_clears_and_notifies
    (stopBeh : AudioClip → Except PyError Bool) (clips : List AudioClip) :
    (StopAll stopBeh clips).clips = [] ∧
      (StopAll stopBeh clips).messages =
        clips.map (fun c => (c.player.userId, Msg.forceStopped)) ∧
      (StopAll stopBeh clips).errorsLogged =
        clips.countP (fun c => behErred stopBeh c) := by
  obtain ⟨h1, h2⟩ := stopAllLoop_messages stopBeh clips clips
  exact ⟨rfl, by simpa [StopAll] using h1, by simpa [StopAll] using h2⟩

/-- C10.  A player whose admin level, rendered as a string, has no tier
entry passes CheckLimits with no message, whatever the stored counters. -/
theorem checkLimits_no_tier_passes (conf : AntiSpamConfig) (loopTime : ℚ)
    (player : PlayerCtx)
    (h : conf.tiers.lookup (toString player.level) = none) :
    CheckLimits conf loopTime player = (true, []) := by
  simp [CheckLimits, h]

/-- Witness for C10 at the concrete player and configuration. -/
theorem checkLimits_no_tier_passes_witness :
    CheckLimits c10conf 1 c10player = (true, []) :=
  checkLimits_no_tier_passes c10conf 1 c10player (by decide)

/-- Helper fact: Python list.remove drops the first occurrence when the
element is present and raises ValueError otherwise. -/
theorem pyRemove_eq [DecidableEq α] (a : α) :
    ∀ l : List α,
      pyRemove l a =
        if a ∈ l then .ok (l.erase a) else .error PyError.valueError := by
  intro l
  induction l with
  | nil => simp [pyRemove]
  | cons x xs ih =>
    by_cases hx : x = a
    · subst hx; simp [pyRemove]
    · by_cases hm : a ∈ xs <;>
        simp [pyRemove, hx, ih, hm, List.erase_cons, Ne.symm hx]

/-- C7.  Removal of a session from the live registry, as performed by the
registered Stop listener running inside the dispatcher's try/except, is
idempotent: removing an absent session leaves the registry unchanged with
the ValueError caught (logged, not raised), and a second removal of a
session that occurred at most once is a no-op. -/
theorem registry_double_removal_noop (l : List AudioClip) (c : AudioClip)
    (h : l.count c ≤ 1) :
    (c ∉ l → dispatchedRemove l c = (l, true)) ∧
      (dispatchedRemove (dispatchedRemove l c).1 c).1 =
        (dispatchedRemove l c).1 := by
  constructor
  · intro hm
    simp [dispatchedRemove, pyRemove_eq, hm]
  · by_cases hm : c ∈ l
    · have h1 : dispatchedRemove l c = (l.erase c, false) := by
        simp [dispatchedRemove, pyRemove_eq, hm]
      have hcnt : (l.erase c).count c = 0 := by
        rw [List.count_erase_self]
        have := List.count_pos_iff.mpr hm
        omega
      have hnm : c ∉ l.erase c := by
        rw [← List.count_pos_iff]
        omega
      rw [h1]
      simp [dispatchedRemove, pyRemove_eq, hnm]
    · have h1 : dispatchedRemove l c = (l, true) := by
        simp [dispatchedRemove, pyRemove_eq, hm]
      rw [h1]
      simp [dispatchedRemove, pyRemove_eq, hm]

/-- Witness for C7 on a one-session registry. -/
theorem registry_double_removal_noop_witness :
    (c7clip ∉ ([c7clip] : List AudioClip) →
        dispatchedRemove [c7clip] c7clip = ([c7clip], true)) ∧
      (dispatchedRemove (dispatchedRemove [c7clip] c7clip).1 c7clip).1 =
        (dispatchedRemove [c7clip] c7clip).1 :=
  registry_double_removal_noop [c7clip] c7clip (by decide)

/-- C9 counterexample.  After Stop has fired on a pipeline, AddCallback
with a valid event kind does raise: `del self.callbacks` has removed the
registration list, so the append raises AttributeError — refuting the
claim that AddCallback on a stopped pipeline does not raise an error. -/
theorem addCallback_after_stop_raises :
    FFmpegAudioPlayer.AddCallback
        (FFmpegAudioPlayer.Stop c9pl (fun _ => true) true).state "Play" 0 =
      .error PyError.attributeError := by
  rfl

/-- C9 amended.  After Stop has fired, the registration list is deleted:
event dispatch invokes no handler (so no listener — in particular none
registered later — ever executes), but AddCallback with a valid event kind
raises AttributeError rather than returning. -/
theorem stopped_pipeline_no_late_delivery (s : FFmpegAudioPlayer)
    (beh : ℕ → Bool) (f : Bool) (h : s.playing = true) :
    (FFmpegAudioPlayer.Stop s beh f).state.callbacks = none ∧
      (∀ cbt cb, VALID_CALLBACKS.contains cbt = true →
        FFmpegAudioPlayer.AddCallback (FFmpegAudioPlayer.Stop s beh f).state
            cbt cb = .error PyError.attributeError) ∧
      (∀ beh2 k,
        FFmpegAudioPlayer.dispatch (FFmpegAudioPlayer.Stop s beh f).state
            beh2 k = []) := by
  have hst : (FFmpegAudioPlayer.Stop s beh f).state.callbacks = none := by
    simp [FFmpegAudioPlayer.Stop, h]
  refine ⟨hst, fun cbt cb hv => ?_, fun beh2 k => ?_⟩
  · have hv2 : cbt ∈ VALID_CALLBACKS := List.mem_of_elem_eq_true hv
    simp [FFmpegAudioPlayer.AddCallback, hv2, hst]
  · simp [FFmpegAudioPlayer.dispatch, hst, Callback]

/-- Witness for the amended C9 at the concrete pipeline. -/
theorem stopped_pipeline_no_late_delivery_witness :
    (FFmpegAudioPlayer.Stop c9pl (fun _ => true) true).state.callbacks =
        none ∧
      (∀ cbt cb, VALID_CALLBACKS.contains cbt = true →
        FFmpegAudioPlayer.AddCallback
            (FFmpegAudioPlayer.Stop c9pl (fun _ => true) true).state cbt cb =
          .error PyError.attributeError) ∧
      (∀ beh2 k,
        FFmpegAudioPlayer.dispatch
            (FFmpegAudioPlayer.Stop c9pl (fun _ => true) true).state beh2 k =
          []) :=
  stopped_pipeline_no_late_delivery c9pl (fun _ => true) true rfl

/-- C6.  On an updater tick of a streaming pipeline, the Update event
carries the wall-clock elapsed time since the first data chunk clamped to
the total observed PCM seconds; when that value has reached the total, the
pipeline stops itself with force = False within the tick, and otherwise
the tick leaves the pipeline untouched. -/
theorem updater_tick_clamps_and_self_stops (s : FFmpegAudioPlayer)
    (beh : ℕ → Bool) (last now t : ℚ) (hp : s.playing = true)
    (hs : s.startedPlaying = some t) :
    (updaterTick s beh last now).update =
        some (last, min (now - t) s.seconds) ∧
      (s.seconds ≤ now - t →
        (updaterTick s beh last now).stoppedThisTick = true ∧
          (updaterTick s beh last now).stopForce = false ∧
          (updaterTick s beh last now).state.playing = false) ∧
      (now - t < s.seconds →
        (updaterTick s beh last now).stoppedThisTick = false ∧
          (updaterTick s beh last now).state = s) := by
  have hcl :
      (if now - t > s.seconds then s.seconds else now - t) =
        min (now - t) s.seconds := by
    split_ifs with h1
    · exact (min_eq_right (le_of_lt h1)).symm
    · exact (min_eq_left (not_lt.mp h1)).symm
  simp only [updaterTick, hp, hs, Bool.not_true, reduceIte, hcl]
  rcases le_or_lt s.seconds (now - t) with hge | hlt
  · rw [min_eq_right hge, if_pos (le_refl s.seconds)]
    refine ⟨rfl, fun _ => ⟨rfl, rfl, ?_⟩, fun hlt' => absurd hge (not_le.mpr hlt')⟩
    simp [FFmpegAudioPlayer.Stop, hp]
  · rw [min_eq_left (le_of_lt hlt), if_neg (not_le.mpr hlt)]
    exact ⟨rfl, fun hge' => absurd hge' (not_le.mpr hlt), fun _ => ⟨rfl, rfl⟩⟩

/-- Witness for C6: one tick at wall-clock 9 on a pipeline started at 5
with 3 seconds of PCM observed — elapsed 4 clamps to 3 and the pipeline
self-stops non-forcefully. -/
theorem updater_tick_clamps_and_self_stops_witness :
    (updaterTick c6pl (fun _ => true) 1 9).update =
        some (1, min (9 - 5) c6pl.seconds) ∧
      (c6pl.seconds ≤ 9 - 5 →
        (updaterTick c6pl (fun _ => true) 1 9).stoppedThisTick = true ∧
          (updaterTick c6pl (fun _ => true) 1 9).stopForce = false ∧
          (updaterTick c6pl (fun _ => true) 1 9).state.playing = false) ∧
      (9 - 5 < c6pl.seconds →
        (updaterTick c6pl (fun _ => true) 1 9).stoppedThisTick = false ∧
          (updaterTick c6pl (fun _ => true) 1 9).state = c6pl) :=
  updater_tick_clamps_and_self_stops c6pl (fun _ => true) 1 9 5 rfl rfl

/-- Helper fact: pyRound lands within half a unit of its argument, so the
reported figure is a nearest integer. -/
theorem pyRound_nearest (q : ℚ) : |(pyRound q : ℚ) - q| ≤ 1 / 2 := by
  have h0 : (0 : ℚ) ≤ q - ⌊q⌋ := by
    have := Int.floor_le q
    linarith
  have h1 : q - (⌊q⌋ : ℚ) < 1 := by
    have := Int.lt_floor_add_one q
    linarith
  unfold pyRound
  split_ifs with ha hb hc <;> rw [abs_le] <;> push_cast <;>
    constructor <;> linarith

/-- C4.  With a tier entry present and the grant-count and total-time
checks passing, a request strictly inside the cooldown window
(previous grant duration × DelayFactor) is denied and the remaining
cooldown is reported rounded — to within half a second of the exact
remainder — while a request at or past the window passes. -/
theorem checkLimits_cooldown (conf : AntiSpamConfig) (loopTime : ℚ)
    (player : PlayerCtx) (tier : TierPolicy)
    (hl : conf.tiers.lookup (toString player.level) = some tier)
    (hUses : ¬(tier.Uses ≥ 0 ∧ player.storage.Uses ≥ tier.Uses))
    (hTime : player.storage.TimeUsed < tier.TotalTime) :
    (loopTime - player.storage.LastUse <
        player.storage.LastUseLength * tier.DelayFactor →
      CheckLimits conf loopTime player =
          (false,
            [Msg.cooldown
              (pyRound
                (player.storage.LastUseLength * tier.DelayFactor -
                  (loopTime - player.storage.LastUse)))]) ∧
        |(pyRound
            (player.storage.LastUseLength * tier.DelayFactor -
              (loopTime - player.storage.LastUse)) : ℚ) -
            (player.storage.LastUseLength * tier.DelayFactor -
              (loopTime - player.storage.LastUse))| ≤ 1 / 2) ∧
      (player.storage.LastUseLength * tier.DelayFactor ≤
          loopTime - player.storage.LastUse →
        CheckLimits conf loopTime player = (true, [])) := by
  constructor
  · intro hcd
    refine ⟨?_, pyRound_nearest _⟩
    simp [CheckLimits, hl, hUses, not_le.mpr hTime, hcd]
  · intro hcd
    simp [CheckLimits, hl, hUses, not_le.mpr hTime, not_lt.mpr hcd]

/-- Witness for C4: a request 5 seconds after a 4-second grant with factor
3 is denied with 7 seconds of cooldown reported; 12 seconds after, it
passes. -/
theorem checkLimits_cooldown_witness :
    CheckLimits c4conf 105 c4p = (false, [Msg.cooldown 7]) ∧
      CheckLimits c4conf 112 c4p = (true, []) := by
  have hp7 : pyRound 7 = 7 := by unfold pyRound; norm_num
  have harg :
      c4p.storage.LastUseLength * c4tier.DelayFactor -
          ((105 : ℚ) - c4p.storage.LastUse) = 7 := by
    norm_num [c4p, c4tier]
  have hd :=
    (checkLimits_cooldown c4conf 105 c4p c4tier (by decide) (by decide)
        (by decide)).1 (by norm_num [c4p, c4tier])
  have hp :=
    (checkLimits_cooldown c4conf 112 c4p c4tier (by decide) (by decide)
        (by decide)).2 (by norm_num [c4p, c4tier])
  refine ⟨?_, hp⟩
  rw [hd.1, harg, hp7]

/-- C2.  For a stop request with no ownership, no stop-authority and no
higher level, where the name filter matches: the requester's id is added
to the voter set (a repeated vote leaves the count unchanged), the owner's
id is never among the counted voters, and the session is stopped exactly
when the voter set holds at least 3 distinct non-owner ids — otherwise the
remaining votes are reported and the clip survives with the vote
recorded. -/
theorem vote_stop_quorum (beh : ℕ → Bool) (stopLevel : ℤ) (p : PlayerCtx)
    (extra : String) (c : AudioClip)
    (hown : p.userId ≠ c.player.userId)
    (hlvl : p.level < stopLevel)
    (hcl : p.level ≤ c.level)
    (hfil : extra = "" ∨ strContains extra.toLower c.player.name.toLower = true)
    (hpipe : c.pipe.playing = true)
    (hinv : c.player.userId ∉ c.stops) :
    (3 ≤ (insert p.userId c.stops).card →
        processClip beh stopLevel p extra c =
          .stopped
            { c with
              stops := insert p.userId c.stops
              pipe := (FFmpegAudioPlayer.Stop c.pipe beh true).state } true) ∧
      ((insert p.userId c.stops).card < 3 →
        processClip beh stopLevel p extra c =
          .voteRecorded ((3 : ℤ) - (insert p.userId c.stops).card)
            { c with stops := insert p.userId c.stops }) ∧
      (p.userId ∈ c.stops →
        (insert p.userId c.stops).card = c.stops.card) ∧
      c.player.userId ∉ insert p.userId c.stops := by
  have hfil' :
      ¬(extra ≠ "" ∧ ¬ strContains extra.toLower c.player.name.toLower = true) := by
    rcases hfil with h | h
    · intro hc; exact hc.1 h
    · intro hc; exact hc.2 h
  refine ⟨?_, ?_, fun hmem => Finset.card_insert_of_mem hmem, ?_⟩
  · intro hq
    have hv : (3 : ℤ) - ((insert p.userId c.stops).card : ℤ) ≤ 0 := by
      have : (3 : ℤ) ≤ ((insert p.userId c.stops).card : ℤ) := by
        exact_mod_cast hq
      omega
    simp only [processClip, if_neg hfil', if_neg hown,
      if_neg (not_le.mpr hlvl), if_neg (not_lt.mpr hcl), if_pos hv]
    simp [clipStop, FFmpegAudioPlayer.Stop, hpipe]
  · intro hq
    have hv : ¬((3 : ℤ) - ((insert p.userId c.stops).card : ℤ) ≤ 0) := by
      have : ((insert p.userId c.stops).card : ℤ) < 3 := by
        exact_mod_cast hq
      omega
    simp only [processClip, if_neg hfil', if_neg hown,
      if_neg (not_le.mpr hlvl), if_neg (not_lt.mpr hcl), if_neg hv]
  · intro hm
    rcases Finset.mem_insert.mp hm with heq | hmem
    · exact hown heq.symm
    · exact hinv hmem

/-- Witness for C2: voters 2 and 3 already recorded, requester 4 casts the
third distinct vote and the clip stops; a repeated vote by 2 would not
have raised the count, and the owner id 1 is not among the voters. -/
theorem vote_stop_quorum_witness :
    (3 ≤ (insert c2req.userId c2clip.stops).card →
        processClip (fun _ => true) 3 c2req "" c2clip =
          .stopped
            { c2clip with
              stops := insert c2req.userId c2clip.stops
              pipe :=
                (FFmpegAudioPlayer.Stop c2clip.pipe (fun _ => true) true).state }
            true) ∧
      ((insert c2req.userId c2clip.stops).card < 3 →
        processClip (fun _ => true) 3 c2req "" c2clip =
          .voteRecorded ((3 : ℤ) - (insert c2req.userId c2clip.stops).card)
            { c2clip with stops := insert c2req.userId c2clip.stops }) ∧
      (c2req.userId ∈ c2clip.stops →
        (insert c2req.userId c2clip.stops).card = c2clip.stops.card) ∧
      c2clip.player.userId ∉ insert c2req.userId c2clip.stops :=
  vote_stop_quorum (fun _ => true) 3 c2req "" c2clip (by decide) (by decide)
    (by decide) (Or.inl rfl) (by decide) (by decide)

/-- C5 counterexample.  AudioManager.Stop stops one session here (the
owner stopping their own clip) yet its Python return value is None, not
the count: the claim that it returns the stopped count as an integer fails
on this input. -/
theorem managerStop_no_return_value :
    (managerStop (fun _ => true) 3 c5owner "" [c5clip]).stoppedCount = 1 ∧
      (managerStop (fun _ => true) 3 c5owner "" [c5clip]).returnValue =
        none := by
  decide

/-- Helper fact: throughout the manager's stop loop, `stopped_count`
equals the number of sessions recorded as stopped. -/
theorem managerLoop_cnt_eq (beh : ℕ → Bool) (stopLevel : ℤ) (p : PlayerCtx)
    (extra : String) :
    ∀ (idx : List ℕ) (states : List AudioClip) (live : List ℕ),
      (managerLoop beh stopLevel p extra idx states live).cnt =
        (managerLoop beh stopLevel p extra idx states live).stoppedIdx.length := by
  intro idx
  induction idx with
  | nil => intro states live; rfl
  | cons i rest ih =>
    intro states live
    rcases hg : states.get? i with _ | c
    · simp only [managerLoop, hg]
      exact ih states live
    · rcases hp : processClip beh stopLevel p extra c with _ | ⟨n, c'⟩ | ⟨c', notify⟩ | c'
      · simp only [managerLoop, hg, hp]
        exact ih states live
      · simp only [managerLoop, hg, hp]
        exact ih _ _
      · simp only [managerLoop, hg, hp, List.length_cons]
        rw [ih]
      · simp only [managerLoop, hg, hp]
        exact ih _ _

/-- C5 amended.  AudioManager.Stop returns None on every input; the
stopped count is tracked internally — it equals the number of sessions
stopped during the scan — and, when positive, is reported to the requester
in a private message rather than returned. -/
theorem managerStop_count_internal (beh : ℕ → Bool) (stopLevel : ℤ)
    (p : PlayerCtx) (extra : String) (clips : List AudioClip) :
    (managerStop beh stopLevel p extra clips).returnValue = none ∧
      (managerStop beh stopLevel p extra clips).stoppedCount =
        (managerStop beh stopLevel p extra clips).stoppedIdx.length ∧
      (0 < (managerStop beh stopLevel p extra clips).stoppedCount →
        (p.userId,
            Msg.stoppedCountReport
              (managerStop beh stopLevel p extra clips).stoppedCount) ∈
          (managerStop beh stopLevel p extra clips).messages) := by
  cases hE : clips.isEmpty with
  | true => simp [managerStop, hE]
  | false =>
    simp only [managerStop, hE, Bool.false_eq_true, reduceIte]
    refine ⟨by trivial, managerLoop_cnt_eq beh stopLevel p extra _ _ _, fun hpos => ?_⟩
    rw [if_pos hpos]
    exact List.mem_append_right _ (List.mem_singleton.mpr rfl)

/-- Witness for the amended C5 at the one-session registry of the
counterexample. -/
theorem managerStop_count_internal_witness :
    (managerStop (fun _ => true) 3 c5owner "" [c5clip]).returnValue = none ∧
      (managerStop (fun _ => true) 3 c5owner "" [c5clip]).stoppedCount =
        (managerStop (fun _ => true) 3 c5owner "" [c5clip]).stoppedIdx.length ∧
      (0 < (managerStop (fun _ => true) 3 c5owner "" [c5clip]).stoppedCount →
        (c5owner.userId,
            Msg.stoppedCountReport
              (managerStop (fun _ => true) 3 c5owner "" [c5clip]).stoppedCount) ∈
          (managerStop (fun _ => true) 3 c5owner "" [c5clip]).messages) :=
  managerStop_count_internal (fun _ => true) 3 c5owner "" [c5clip]

end Torchlight
